import Mathlib

/-!
Shallow embedding of `src/assets/consent.js` (the `CookieConsent` IIFE):
the category registry, versioned persistence with a cookie fallback,
inert-script activation, best-effort cookie purge on revocation, and the
engine operations `applyConsent`, `defaultPrefs`, `init`, `hasConsent`,
`reset`.

Modelling conventions:
- `localStorage` under the fixed key is `St.ls : Option Stored`; a thrown
  exception (storage disabled / quota) is the fixed flag `St.lsAvail = false`.
- The fallback consent cookie under the fixed key is `St.ck : Option Stored`;
  a payload that fails `JSON.parse` (or `decodeURIComponent`) is
  `Stored.corrupt`.
- The DOM's script elements are `St.doc : List ScriptEl` in document order.
- `document.cookie` writes that expire a cookie are logged in
  `St.deletions` as (name, scope-variant) pairs; expiring a cookie never
  stores a value, and the only such write that can remove the fallback
  consent cookie (set host-only with `path=/`) is the `path=/` variant for
  the name `cookie_consent`, which `applyConsent` accounts for.
- `Date.now()` is the state field `St.now`; `location.reload()` re-evaluates
  the module, so the in-memory `consent` variable returns to `null`.
- JS objects with string keys are association lists in insertion order
  (`Object.entries` / `Object.keys` enumerate in that order); `obj[k]` on a
  missing key yields `undefined`, whose truthiness is `false`, hence
  `getPref` defaults to `false`.
-/

namespace CookieConsent

/-- `STORAGE_KEY` from consent.js line 40: the fixed key both backends use. -/
def STORAGE_KEY : String := "cookie_consent"

/-- `CONSENT_VERSION` from consent.js line 41. -/
def CONSENT_VERSION : String := "2"

/-- One value of the `CATEGORIES` registry object (consent.js lines 44-69). -/
structure CategoryDef where
  label : String
  description : String
  required : Bool
  default : Bool
  deriving Repr, DecidableEq

/-- A consent prefs mapping: category key to boolean, insertion-ordered. -/
abbrev Prefs := List (String × Bool)

/-- `prefs[cat]` truthiness in JS: the stored boolean, `false` if absent. -/
def getPref (p : Prefs) (k : String) : Bool := (p.lookup k).getD false

/-- The built-in `CATEGORIES` registry (consent.js lines 44-69). -/
def CATEGORIES : List (String × CategoryDef) :=
  [ ("necessary",
      { label := "Necessary"
        description := "Required for the website to function. Cannot be disabled."
        required := true
        default := true }),
    ("analytics",
      { label := "Analytics"
        description := "Help us understand how visitors interact with the site (e.g. Google Analytics)."
        required := false
        default := false }),
    ("marketing",
      { label := "Marketing"
        description := "Used to deliver relevant ads and track campaign effectiveness."
        required := false
        default := false }),
    ("preferences",
      { label := "Preferences"
        description := "Remember settings like language and theme across visits."
        required := false
        default := false }) ]

/-- The built-in `COOKIE_MAP` (consent.js lines 72-76). -/
def COOKIE_MAP : List (String × List String) :=
  [ ("analytics",
      ["_ga", "_gid", "_gat", "_gat_gtag", "__hstc", "hubspotutk", "_hjid", "_hjSessionUser"]),
    ("marketing", ["_fbp", "_fbc", "fr", "tr", "__gads"]),
    ("preferences", ["lang", "theme", "currency"]) ]

/-- `Object.assign(base, over)`: each override replaces an existing key in
place or is appended at the end, in override order. -/
def setKey {α : Type} (l : List (String × α)) (kv : String × α) : List (String × α) :=
  if (l.map Prod.fst).contains kv.1 then
    l.map (fun p => if p.1 = kv.1 then kv else p)
  else l ++ [kv]

/-- Folds `setKey` over the overrides, as `Object.assign` does. -/
def assign {α : Type} (base over : List (String × α)) : List (String × α) :=
  over.foldl setKey base

/-- What sits in one storage backend under the fixed key: a payload
`{version, prefs, ts}` that parses, or bytes that fail to parse. -/
inductive Stored where
  | good (version : String) (prefs : Prefs) (ts : Nat)
  | corrupt
  deriving Repr, DecidableEq

/-- The three deletion scope variants of `deleteCookies` (consent.js line
129): `path=/`, `path=/;domain=host`, `path=/;domain=.host`. -/
inductive Scope where
  | pathOnly
  | pathHost
  | pathDotHost
  deriving Repr, DecidableEq

/-- The scope-variant list, in the order the source iterates it. -/
def cookieTails : List Scope := [Scope.pathOnly, Scope.pathHost, Scope.pathDotHost]

/-- A `<script>` element as `activateScripts` observes it: its `type`
attribute, its `data-cookie-category` and `data-src` and `src` attributes
(absent = `none`), and its text content. -/
structure ScriptEl where
  typ : String
  category : Option String
  dataSrc : Option String
  src : Option String
  body : String
  deriving Repr, DecidableEq

/-- JS truthiness of `el.getAttribute(name)`: `null` and `""` are falsy. -/
def jsTruthy (o : Option String) : Bool :=
  match o with
  | none => false
  | some s => s != ""

/-- Does the element match the selector
`script[type="text/plain"][data-cookie-category="cat"]`? -/
def matchesSel (cat : String) (e : ScriptEl) : Bool :=
  e.typ == "text/plain" && e.category == some cat

/-- The live element `replaceChild` substitutes for a matched inert one
(consent.js lines 114-122): every attribute except `type` is copied,
`data-src` becomes `src`, the new `type` is `text/javascript`, and the body
is inlined only when `data-src` is absent or empty. -/
def activateEl (e : ScriptEl) : ScriptEl :=
  { typ := "text/javascript"
    category := e.category
    dataSrc := none
    src := match e.dataSrc with
           | some v => some v
           | none => e.src
    body := if jsTruthy e.dataSrc then "" else e.body }

/-- `activateScripts(category)` (consent.js lines 110-124): each matching
inert element is replaced in place by its activated counterpart. -/
def activateScripts (cat : String) (doc : List ScriptEl) : List ScriptEl :=
  doc.map (fun e => if matchesSel cat e then activateEl e else e)

/-- `deleteCookies(category)` (consent.js lines 127-133): one deletion
attempt per known cookie name per scope variant, as a log of attempts. -/
def deleteCookies (cmap : List (String × List String)) (cat : String) :
    List (String × Scope) :=
  ((cmap.lookup cat).getD []).flatMap (fun n => cookieTails.map (fun t => (n, t)))

/-- The whole module state: the two storage backends, the module-level
`consent` variable, the (mutable) registry and cookie map, the document,
the deletion-attempt log, the dispatched `cc:consent` event payloads, and
the clock. `lsAvail` is whether `localStorage` operations succeed. -/
structure St where
  lsAvail : Bool
  ls : Option Stored
  ck : Option Stored
  consent : Option Prefs
  cats : List (String × CategoryDef)
  cmap : List (String × List String)
  doc : List ScriptEl
  deletions : List (String × Scope)
  events : List Prefs
  now : Nat
  deriving Repr, DecidableEq

/-- `save(prefs)` (consent.js lines 81-89), with the compiled version as a
parameter: write `{version, prefs, ts}` to `localStorage`; if that throws,
write the same payload to the fallback cookie instead. -/
def save (v : String) (prefs : Prefs) (s : St) : St :=
  if s.lsAvail then { s with ls := some (Stored.good v prefs s.now) }
  else { s with ck := some (Stored.good v prefs s.now) }

/-- The cookie-fallback half of `load()` (consent.js lines 99-106). -/
def loadCk (v : String) (s : St) : Option Prefs :=
  match s.ck with
  | some (Stored.good dv p _) => if dv = v then some p else none
  | some Stored.corrupt => none
  | none => none

/-- `load()` (consent.js lines 91-107), with the compiled version as a
parameter: read `localStorage` first; a read failure, a missing or corrupt
payload, or a version mismatch all fall through to the fallback cookie. -/
def load (v : String) (s : St) : Option Prefs :=
  match (if s.lsAvail then s.ls else none) with
  | some (Stored.good dv p _) => if dv = v then some p else loadCk v s
  | some Stored.corrupt => loadCk v s
  | none => loadCk v s

/-- One `Object.entries(prefs).forEach` step of `applyConsent` (consent.js
lines 144-146), factored per element of the document. -/
def activateStep (e : ScriptEl) (kv : String × Bool) : ScriptEl :=
  if kv.2 && matchesSel kv.1 e then activateEl e else e

/-- The document after `applyConsent`'s activation loop: for each prefs
entry in order, activate its category when the value is truthy. -/
def activateAll (prefs : Prefs) (doc : List ScriptEl) : List ScriptEl :=
  prefs.foldl (fun d kv => if kv.2 then activateScripts kv.1 d else d) doc

/-- The deletion attempts `applyConsent` issues before installing `prefs`
(consent.js lines 138-142): when a current record exists, each registry key
(`Object.keys(CATEGORIES)`) that is truthy in it and falsy in `prefs` is
purged via `deleteCookies`. -/
def purgeList (s : St) (prefs : Prefs) : List (String × Scope) :=
  match s.consent with
  | none => []
  | some old =>
      ((s.cats.map Prod.fst).filter
          (fun cat => getPref old cat && !(getPref prefs cat))).flatMap
        (fun cat => deleteCookies s.cmap cat)

/-- `applyConsent(prefs)` (consent.js lines 136-149): purge cookies of
registry categories that were truthy and are no longer, install `prefs` as
the current record, activate every truthy category of `prefs`, persist,
and dispatch `cc:consent`. -/
def applyConsent (prefs : Prefs) (s : St) : St :=
  let dels : List (String × Scope) := purgeList s prefs
  let s1 : St :=
    { s with deletions := s.deletions ++ dels
             ck := if dels.any (fun d => d.1 == STORAGE_KEY) then none else s.ck }
  let s2 : St := { s1 with consent := some prefs }
  let s3 : St := { s2 with doc := activateAll prefs s2.doc }
  let s4 : St := save CONSENT_VERSION prefs s3
  { s4 with events := s4.events ++ [prefs] }

/-- `defaultPrefs()` (consent.js lines 151-155): required categories map to
`true`, the others to their configured default. -/
def defaultPrefs (cats : List (String × CategoryDef)) : Prefs :=
  cats.map (fun kv => (kv.1, if kv.2.required then true else kv.2.default))

/-- `acceptAll()` (consent.js lines 157-159). -/
def acceptAll (s : St) : St :=
  applyConsent (s.cats.map (fun kv => (kv.1, true))) s

/-- `rejectAll()` (consent.js lines 161-163). -/
def rejectAll (s : St) : St :=
  applyConsent (defaultPrefs s.cats) s

/-- The `init(options)` configuration object (consent.js lines 357-359). -/
structure Options where
  categories : Option (List (String × CategoryDef))
  cookieMap : Option (List (String × List String))
  deriving Repr, DecidableEq

/-- The option-merging prologue of `init` (consent.js lines 358-359):
`Object.assign` the caller's categories and cookie map over the built-ins. -/
def mergeOpts (opts : Options) (s : St) : St :=
  { s with cats := match opts.categories with
                   | some o => assign s.cats o
                   | none => s.cats
           cmap := match opts.cookieMap with
                   | some o => assign s.cmap o
                   | none => s.cmap }

/-- `init(options)` (consent.js lines 357-376): merge the options into the
registry and cookie map, then load; a stored record is silently honoured
(install it and activate its truthy categories), otherwise activate only
`necessary` and show the banner (UI, not modelled). -/
def init (opts : Options) (s : St) : St :=
  let s0 : St := mergeOpts opts s
  match load CONSENT_VERSION s0 with
  | some stored =>
      { s0 with consent := some stored
                doc := activateAll stored s0.doc }
  | none =>
      { s0 with doc := activateScripts "necessary" s0.doc }

/-- `hasConsent(category)` (consent.js lines 379-381):
`!!(consent && consent[category])`. -/
def hasConsent (s : St) (category : String) : Bool :=
  match s.consent with
  | none => false
  | some p => getPref p category

/-- `reset()` (consent.js lines 389-394): remove the `localStorage` entry
(silently a no-op when storage throws), expire the fallback cookie at
`path=/` (its own scope), and `location.reload()`, which re-evaluates the
module so the in-memory `consent` is `null` again. -/
def reset (s : St) : St :=
  { s with ls := if s.lsAvail then none else s.ls
           ck := none
           consent := none }

/-- A fresh module state over an empty document and empty storage. -/
def emptySt : St :=
  { lsAvail := true
    ls := none
    ck := none
    consent := none
    cats := CATEGORIES
    cmap := COOKIE_MAP
    doc := []
    deletions := []
    events := []
    now := 0 }

/-! ## Helper lemmas about the embedding -/

/-- An element whose `type` is not `text/plain` matches no selector. -/
theorem matchesSel_active (cat : String) (e : ScriptEl)
    (h : e.typ ≠ "text/plain") : matchesSel cat e = false := by
  unfold matchesSel
  rw [beq_eq_false_iff_ne.mpr h, Bool.false_and]

theorem activateEl_typ (e : ScriptEl) : (activateEl e).typ = "text/javascript" := rfl

theorem activateEl_category (e : ScriptEl) : (activateEl e).category = e.category := rfl

/-- An already-active element is fixed by the whole activation loop. -/
theorem foldl_activateStep_active (l : Prefs) (e : ScriptEl)
    (h : e.typ ≠ "text/plain") : l.foldl activateStep e = e := by
  induction l with
  | nil => rfl
  | cons kv l ih =>
      have hs : activateStep e kv = e := by
        simp [activateStep, matchesSel_active kv.1 e h]
      rw [List.foldl_cons, hs, ih]

/-- The activation loop either leaves an element alone or leaves it with
`type = "text/javascript"`. -/
theorem foldl_activateStep_cases (l : Prefs) (e : ScriptEl) :
    l.foldl activateStep e = e ∨ (l.foldl activateStep e).typ = "text/javascript" := by
  induction l generalizing e with
  | nil => exact Or.inl rfl
  | cons kv l ih =>
      cases hb : (kv.2 && matchesSel kv.1 e) with
      | false =>
          have hs : activateStep e kv = e := by simp [activateStep, hb]
          rw [List.foldl_cons, hs]
          exact ih e
      | true =>
          have hs : activateStep e kv = activateEl e := by simp [activateStep, hb]
          rw [List.foldl_cons, hs,
            foldl_activateStep_active l (activateEl e) (by rw [activateEl_typ]; decide)]
          exact Or.inr (activateEl_typ e)

/-- The activation loop never changes the category attribute. -/
theorem foldl_activateStep_category (l : Prefs) (e : ScriptEl) :
    (l.foldl activateStep e).category = e.category := by
  induction l generalizing e with
  | nil => rfl
  | cons kv l ih =>
      rw [List.foldl_cons, ih (activateStep e kv)]
      cases hb : (kv.2 && matchesSel kv.1 e) <;> simp [activateStep, hb, activateEl]

/-- `activateAll` is the per-element activation loop mapped over the
document. -/
theorem activateAll_eq_map (prefs : Prefs) (doc : List ScriptEl) :
    activateAll prefs doc = doc.map (fun e => prefs.foldl activateStep e) := by
  induction prefs generalizing doc with
  | nil => simp [activateAll]
  | cons kv l ih =>
      unfold activateAll
      rw [List.foldl_cons]
      cases hb : kv.2 with
      | false =>
          have h1 : (fun e => List.foldl activateStep e (kv :: l)) =
              (fun e => List.foldl activateStep e l) := by
            funext e
            rw [List.foldl_cons, show activateStep e kv = e by simp [activateStep, hb]]
          rw [if_neg (by simp), h1]
          exact ih doc
      | true =>
          have h1 : (fun e => List.foldl activateStep e (kv :: l)) =
              ((fun e => List.foldl activateStep e l) ∘
               (fun e => if matchesSel kv.1 e then activateEl e else e)) := by
            funext e
            rw [Function.comp_apply, List.foldl_cons,
              show activateStep e kv = if matchesSel kv.1 e then activateEl e else e by
                simp [activateStep, hb]]
          rw [if_pos rfl, h1, ← List.map_map]
          exact ih (activateScripts kv.1 doc)

/-- Activating twice with the same prefs is the same as activating once. -/
theorem activateAll_idem (prefs : Prefs) (doc : List ScriptEl) :
    activateAll prefs (activateAll prefs doc) = activateAll prefs doc := by
  rw [activateAll_eq_map, activateAll_eq_map, List.map_map]
  have h1 : ((fun e => prefs.foldl activateStep e) ∘
      (fun e => prefs.foldl activateStep e)) =
      (fun e => prefs.foldl activateStep e) := by
    funext e
    rw [Function.comp_apply]
    rcases foldl_activateStep_cases prefs e with h | h
    · rw [h]; exact h
    · exact foldl_activateStep_active prefs _ (by rw [h]; decide)
  rw [h1]

/-- `activateScripts` with one category is idempotent. -/
theorem activateScripts_idem (cat : String) (doc : List ScriptEl) :
    activateScripts cat (activateScripts cat doc) = activateScripts cat doc := by
  unfold activateScripts
  rw [List.map_map]
  have h1 : ((fun e => if matchesSel cat e then activateEl e else e) ∘
      (fun e => if matchesSel cat e then activateEl e else e)) =
      (fun e => if matchesSel cat e then activateEl e else e) := by
    funext e
    rw [Function.comp_apply]
    cases hm : matchesSel cat e with
    | false => simp [hm]
    | true =>
        simp [matchesSel_active cat (activateEl e) (by rw [activateEl_typ]; decide)]
  rw [h1]

/-- After `activateScripts cat`, no element matches the `cat` selector. -/
theorem activateScripts_removes (cat : String) (doc : List ScriptEl) :
    ∀ e ∈ activateScripts cat doc, matchesSel cat e = false := by
  intro e he
  rcases List.mem_map.mp he with ⟨x, _, rfl⟩
  cases hm : matchesSel cat x with
  | false => simpa using hm
  | true =>
      simpa using matchesSel_active cat (activateEl x) (by rw [activateEl_typ]; decide)

/-- `applyConsent`'s effect on the document is exactly `activateAll`. -/
theorem applyConsent_doc (p : Prefs) (s : St) :
    (applyConsent p s).doc = activateAll p s.doc := by
  unfold applyConsent save
  cases h : s.lsAvail <;> simp [h]

/-- `applyConsent` installs its argument as the current record. -/
theorem applyConsent_consent (p : Prefs) (s : St) :
    (applyConsent p s).consent = some p := by
  unfold applyConsent save
  cases h : s.lsAvail <;> simp [h]

/-- `applyConsent` appends exactly `purgeList` to the deletion log. -/
theorem applyConsent_deletions (p : Prefs) (s : St) :
    (applyConsent p s).deletions = s.deletions ++ purgeList s p := by
  unfold applyConsent save
  cases h : s.lsAvail <;> simp [h]

/-- `defaultPrefs` transforms the registry pointwise under lookup. -/
theorem defaultPrefs_lookup (cats : List (String × CategoryDef)) (k : String) :
    (defaultPrefs cats).lookup k =
      (cats.lookup k).map (fun c => if c.required then true else c.default) := by
  induction cats with
  | nil => rfl
  | cons kv l ih =>
      cases hk : (k == kv.1) with
      | false => simpa [defaultPrefs, List.lookup, hk] using ih
      | true => simp [defaultPrefs, List.lookup, hk]

/-- Merging `init` options touches neither storage backend nor the clock,
so `load` is unaffected. -/
theorem load_mergeOpts (v : String) (opts : Options) (s : St) :
    load v (mergeOpts opts s) = load v s := rfl

/-- If `prefs` holds `(k, true)`, the activation loop leaves no element
that is still inert and tagged with category `k`. -/
theorem foldl_activateStep_true_mem (l : Prefs) (k : String) (e : ScriptEl)
    (hk : (k, true) ∈ l) :
    ¬((l.foldl activateStep e).typ = "text/plain" ∧
      (l.foldl activateStep e).category = some k) := by
  induction l generalizing e with
  | nil => cases hk
  | cons kv l ih =>
      rw [List.foldl_cons]
      rcases List.mem_cons.mp hk with heq | hmem
      · cases hm : matchesSel k e with
        | true =>
            have hs : activateStep e kv = activateEl e := by
              rw [← heq]; simp [activateStep, hm]
            rw [hs, foldl_activateStep_active l (activateEl e)
              (by rw [activateEl_typ]; decide)]
            rintro ⟨h1, _⟩
            rw [activateEl_typ] at h1
            exact absurd h1 (by decide)
        | false =>
            have hs : activateStep e kv = e := by
              rw [← heq]; simp [activateStep, hm]
            rw [hs]
            unfold matchesSel at hm
            cases hty : (e.typ == "text/plain") with
            | false =>
                rw [foldl_activateStep_active l e (beq_eq_false_iff_ne.mp hty)]
                rintro ⟨h1, _⟩
                exact absurd h1 (beq_eq_false_iff_ne.mp hty)
            | true =>
                have hca : (e.category == some k) = false := by
                  rw [hty, Bool.true_and] at hm; exact hm
                rintro ⟨_, h2⟩
                rw [foldl_activateStep_category] at h2
                exact absurd h2 (beq_eq_false_iff_ne.mp hca)
      · exact ih (activateStep e kv) hmem

/-! ## Claim C1 -/

/-- Claim C1 counterexample: the code does not enforce the `required`
invariant in `applyConsent`. Calling `applyConsent` with
`necessary = false` installs a current record in which the required
category `necessary` has value `false`, so the claim as stated fails. -/
theorem applyConsent_installs_required_false :
    ((CATEGORIES.lookup "necessary").map CategoryDef.required = some true) ∧
    (applyConsent [("necessary", false)] emptySt).consent =
      some [("necessary", false)] ∧
    getPref [("necessary", false)] "necessary" = false := by
  refine ⟨rfl, ?_, rfl⟩
  rw [applyConsent_consent]

/-- Claim C1, amended: every record produced by `defaultPrefs` gives each
required registry category the value `true`, but `applyConsent` installs
the caller's record exactly as given, with no required-category clamping;
the invariant holds for constructor-produced records only. -/
theorem defaultPrefs_required_true_apply_unclamped
    (cats : List (String × CategoryDef)) (k : String) (c : CategoryDef)
    (hc : cats.lookup k = some c) (hreq : c.required = true)
    (p : Prefs) (s : St) :
    getPref (defaultPrefs cats) k = true ∧ (applyConsent p s).consent = some p := by
  constructor
  · unfold getPref
    rw [defaultPrefs_lookup, hc]
    simp [hreq]
  · exact applyConsent_consent p s

/-- Witness for the amended C1 theorem at the built-in registry. -/
theorem defaultPrefs_required_true_apply_unclamped_witness :
    (CATEGORIES.lookup "necessary" =
      some { label := "Necessary"
             description := "Required for the website to function. Cannot be disabled."
             required := true
             default := true }) ∧
    (getPref (defaultPrefs CATEGORIES) "necessary" = true ∧
      (applyConsent [("analytics", true)] emptySt).consent =
        some [("analytics", true)]) :=
  ⟨by decide,
   defaultPrefs_required_true_apply_unclamped CATEGORIES "necessary"
     { label := "Necessary"
       description := "Required for the website to function. Cannot be disabled."
       required := true
       default := true }
     (by decide) (by decide) [("analytics", true)] emptySt⟩

/-! ## Claim C2 -/

/-- The state for the C2 counterexample: a current record that is truthy
for the key `custom`, which is absent from the category registry, while
the cookie map (extended the way `init options.cookieMap` extends it) maps
`custom` to the cookie name `a`. -/
def s_custom : St :=
  { emptySt with consent := some [("custom", true)]
                 cmap := assign COOKIE_MAP [("custom", ["a"])] }

/-- Claim C2 counterexample: `applyConsent` diffs over
`Object.keys(CATEGORIES)`, not over the keys of the old record, so a key
of the old record that is not in the registry is never purged even though
the cookie map holds names for it: revoking `custom` issues no deletion
attempt at all. -/
theorem applyConsent_unregistered_key_not_purged :
    getPref [("custom", true)] "custom" = true ∧
    getPref [("custom", false)] "custom" = false ∧
    s_custom.cmap.lookup "custom" = some ["a"] ∧
    ("custom" ∈ s_custom.cats.map Prod.fst) = False ∧
    (applyConsent [("custom", false)] s_custom).deletions = [] := by
  refine ⟨rfl, rfl, by decide, by simp [s_custom, emptySt, CATEGORIES], ?_⟩
  rw [applyConsent_deletions]
  decide

/-- Claim C2, amended: for every key of the category registry that is
truthy in the old current record and falsy in the record passed to
`applyConsent`, a deletion attempt is issued for each cookie name the
cookie map holds for that key, at all three scope variants, and the new
current record is the applied record (so that key now reads `false`). -/
theorem applyConsent_purges_revoked_registry_key
    (s : St) (old p : Prefs) (k n : String)
    (hold : s.consent = some old)
    (hk : k ∈ s.cats.map Prod.fst)
    (ht : getPref old k = true) (hf : getPref p k = false)
    (hn : n ∈ (s.cmap.lookup k).getD []) :
    (∀ sc : Scope, (n, sc) ∈ (applyConsent p s).deletions) ∧
    (applyConsent p s).consent = some p ∧
    getPref p k = false := by
  refine ⟨fun sc => ?_, applyConsent_consent p s, hf⟩
  rw [applyConsent_deletions]
  apply List.mem_append_right
  unfold purgeList
  rw [hold]
  apply List.mem_flatMap.mpr
  refine ⟨k, List.mem_filter.mpr ⟨hk, by simp [ht, hf]⟩, ?_⟩
  unfold deleteCookies
  exact List.mem_flatMap.mpr
    ⟨n, hn, List.mem_map.mpr ⟨sc, by cases sc <;> simp [cookieTails], rfl⟩⟩

/-- Witness for the amended C2 theorem: revoking `marketing` after it was
granted issues, among others, the attempt for `_fbp` at the exact-host
scope, and the record now holds `marketing = false`. -/
theorem applyConsent_purges_revoked_registry_key_witness :
    (({ emptySt with consent := some [("marketing", true)] } : St).consent =
        some [("marketing", true)] ∧
      "marketing" ∈ ({ emptySt with consent := some [("marketing", true)] } :
        St).cats.map Prod.fst ∧
      getPref [("marketing", true)] "marketing" = true ∧
      getPref [("marketing", false)] "marketing" = false ∧
      "_fbp" ∈ ((({ emptySt with consent := some [("marketing", true)] } :
        St).cmap.lookup "marketing").getD [])) ∧
    ((∀ sc : Scope, ("_fbp", sc) ∈
        (applyConsent [("marketing", false)]
          { emptySt with consent := some [("marketing", true)] }).deletions) ∧
      (applyConsent [("marketing", false)]
          { emptySt with consent := some [("marketing", true)] }).consent =
        some [("marketing", false)] ∧
      getPref [("marketing", false)] "marketing" = false) :=
  ⟨⟨rfl, by decide, rfl, rfl, by decide⟩,
   applyConsent_purges_revoked_registry_key _ _ _ "marketing" "_fbp"
     rfl (by decide) rfl rfl (by decide)⟩

/-! ## Claim C3 -/

/-- Claim C3: starting from a state whose fallback cookie is empty,
`load` right after `save prefs` returns exactly `prefs` when the compiled
version is unchanged, and returns no record when the compiled version at
load time differs from the one stored with the payload, even though the
payload still sits in one of the two backends. -/
theorem load_after_save_version_roundtrip (s : St) (p : Prefs) (v v' : String)
    (hck : s.ck = none) :
    (v' = v → load v' (save v p s) = some p) ∧
    (v' ≠ v → load v' (save v p s) = none ∧
      ((save v p s).ls = some (Stored.good v p s.now) ∨
       (save v p s).ck = some (Stored.good v p s.now))) := by
  cases hl : s.lsAvail with
  | true =>
      constructor
      · intro he
        simp [save, load, loadCk, hl, he]
      · intro hne
        have hvv : ¬(v = v') := fun h => hne h.symm
        simp [save, load, loadCk, hl, hck, hvv]
  | false =>
      constructor
      · intro he
        simp [save, load, loadCk, hl, he]
      · intro hne
        have hvv : ¬(v = v') := fun h => hne h.symm
        simp [save, load, loadCk, hl, hvv]

/-- Witness for C3 at the empty state, exercising both the round-trip at
the unchanged version and the mismatch after a version bump. -/
theorem load_after_save_version_roundtrip_witness :
    emptySt.ck = none ∧
    load "2" (save "2" [("analytics", true)] emptySt) = some [("analytics", true)] ∧
    load "3" (save "2" [("analytics", true)] emptySt) = none := by
  refine ⟨rfl, ?_, ?_⟩
  · exact (load_after_save_version_roundtrip emptySt [("analytics", true)]
      "2" "2" rfl).1 rfl
  · exact ((load_after_save_version_roundtrip emptySt [("analytics", true)]
      "2" "3" rfl).2 (by decide)).1

/-! ## Claim C4 -/

/-- Claim C4: when the primary backend is operational, `reset` removes the
payload under the fixed key from both backends, the in-memory record is
gone (the engine is Undecided), and no subsequent `load` at any version
finds a record. -/
theorem reset_clears_backends_and_consent (s : St) (h : s.lsAvail = true) :
    (reset s).ls = none ∧ (reset s).ck = none ∧ (reset s).consent = none ∧
    ∀ v : String, load v (reset s) = none := by
  refine ⟨by simp [reset, h], rfl, rfl, fun v => ?_⟩
  simp [load, loadCk, reset, h]

/-- Witness for C4 at a state holding a payload in both backends and a
decided record. -/
theorem reset_clears_backends_and_consent_witness :
    ({ emptySt with ls := some (Stored.good "2" [("analytics", true)] 5)
                    ck := some (Stored.good "2" [("analytics", true)] 5)
                    consent := some [("analytics", true)] } : St).lsAvail = true ∧
    ((reset { emptySt with ls := some (Stored.good "2" [("analytics", true)] 5)
                           ck := some (Stored.good "2" [("analytics", true)] 5)
                           consent := some [("analytics", true)] }).ls = none ∧
     (reset { emptySt with ls := some (Stored.good "2" [("analytics", true)] 5)
                           ck := some (Stored.good "2" [("analytics", true)] 5)
                           consent := some [("analytics", true)] }).ck = none ∧
     (reset { emptySt with ls := some (Stored.good "2" [("analytics", true)] 5)
                           ck := some (Stored.good "2" [("analytics", true)] 5)
                           consent := some [("analytics", true)] }).consent = none ∧
     ∀ v : String,
       load v (reset { emptySt with
         ls := some (Stored.good "2" [("analytics", true)] 5)
         ck := some (Stored.good "2" [("analytics", true)] 5)
         consent := some [("analytics", true)] }) = none) :=
  ⟨rfl, reset_clears_backends_and_consent _ rfl⟩

/-! ## Claim C5 -/

/-- Claim C5: each inert declaration is replaced exactly once (replacement,
not insertion: the document keeps its length) and removed from the inert
set (no element of the activated document matches the selector again), so
repeated `activateScripts` with the same category, and `applyConsent`
applied twice with the same prefs, re-process nothing and duplicate
nothing. -/
theorem activation_idempotent_no_duplication (cat : String) (doc : List ScriptEl)
    (p : Prefs) (s : St) :
    activateScripts cat (activateScripts cat doc) = activateScripts cat doc ∧
    (activateScripts cat doc).length = doc.length ∧
    (∀ e ∈ activateScripts cat doc, matchesSel cat e = false) ∧
    (applyConsent p (applyConsent p s)).doc = (applyConsent p s).doc := by
  refine ⟨activateScripts_idem cat doc, ?_, activateScripts_removes cat doc, ?_⟩
  · unfold activateScripts
    exact List.length_map _ _
  · rw [applyConsent_doc, applyConsent_doc, activateAll_idem]

/-- An inert analytics-tagged inline declaration, for concrete instances. -/
def elAna : ScriptEl :=
  { typ := "text/plain"
    category := some "analytics"
    dataSrc := none
    src := none
    body := "track();" }

/-- Witness for C5 on a one-element document. -/
theorem activation_idempotent_no_duplication_witness :
    activateScripts "analytics" (activateScripts "analytics" [elAna]) =
      activateScripts "analytics" [elAna] ∧
    (activateScripts "analytics" [elAna]).length = [elAna].length ∧
    (∀ e ∈ activateScripts "analytics" [elAna], matchesSel "analytics" e = false) ∧
    (applyConsent [("analytics", true)]
        (applyConsent [("analytics", true)] { emptySt with doc := [elAna] })).doc =
      (applyConsent [("analytics", true)] { emptySt with doc := [elAna] }).doc :=
  activation_idempotent_no_duplication "analytics" [elAna] [("analytics", true)]
    { emptySt with doc := [elAna] }

/-! ## Claim C6 -/

/-- Claim C6: while no current record exists, `hasConsent` is `false` for
every key (required ones included); once a record exists, it returns the
boolean that record stores for the key. -/
theorem hasConsent_undecided_false_decided_lookup (s : St) (k : String)
    (p : Prefs) (b : Bool) :
    (s.consent = none → hasConsent s k = false) ∧
    (s.consent = some p → p.lookup k = some b → hasConsent s k = b) := by
  constructor
  · intro h
    simp [hasConsent, h]
  · intro h hb
    simp [hasConsent, h, getPref, hb]

/-- Witness for C6: undecided state answers `false` even for `necessary`;
a decided state answers the stored boolean. -/
theorem hasConsent_undecided_false_decided_lookup_witness :
    emptySt.consent = none ∧
    hasConsent emptySt "necessary" = false ∧
    hasConsent { emptySt with consent := some [("analytics", true)] } "analytics" =
      true :=
  ⟨rfl,
   (hasConsent_undecided_false_decided_lookup emptySt "necessary" [] true).1 rfl,
   (hasConsent_undecided_false_decided_lookup
      { emptySt with consent := some [("analytics", true)] } "analytics"
      [("analytics", true)] true).2 rfl (by decide)⟩

/-! ## Claim C7 -/

/-- If `load` finds nothing, `init`'s document effect is exactly the
`necessary` activation pass. -/
theorem init_doc_none (opts : Options) (s : St)
    (h : load CONSENT_VERSION s = none) :
    (init opts s).doc = activateScripts "necessary" s.doc := by
  simp only [init]
  rw [load_mergeOpts, h]
  rfl

/-- Claim C7: when `init` runs and `load` returns no record, every inert
declaration tagged `necessary` is activated and every other element of
the document, in particular every declaration of any other category, is
left exactly as it was. -/
theorem init_no_record_activates_necessary_only (opts : Options) (s : St)
    (h : load CONSENT_VERSION s = none) :
    List.Forall₂ (fun e e' =>
        ((e.typ = "text/plain" ∧ e.category = some "necessary") →
          e' = activateEl e) ∧
        (¬(e.typ = "text/plain" ∧ e.category = some "necessary") → e' = e))
      s.doc (init opts s).doc := by
  rw [init_doc_none opts s h]
  unfold activateScripts
  rw [List.forall₂_map_right_iff]
  apply List.forall₂_same.mpr
  intro e _
  constructor
  · rintro ⟨h1, h2⟩
    rw [if_pos (by simp [matchesSel, h1, h2])]
  · intro hn
    cases hm : matchesSel "necessary" e with
    | false => rw [if_neg (by simp [hm])]
    | true =>
        exfalso
        simp [matchesSel] at hm
        exact hn ⟨hm.1, hm.2⟩

/-- An inert necessary-tagged inline declaration, for concrete instances. -/
def elNec : ScriptEl :=
  { typ := "text/plain"
    category := some "necessary"
    dataSrc := none
    src := none
    body := "boot();" }

/-- A fresh first-visit state: empty storage, one `necessary` and one
`analytics` inert declaration in the document. -/
def s_fresh : St := { emptySt with doc := [elNec, elAna] }

/-- Witness for C7 on the fresh two-element document. -/
theorem init_no_record_activates_necessary_only_witness :
    load CONSENT_VERSION s_fresh = none ∧
    List.Forall₂ (fun e e' =>
        ((e.typ = "text/plain" ∧ e.category = some "necessary") →
          e' = activateEl e) ∧
        (¬(e.typ = "text/plain" ∧ e.category = some "necessary") → e' = e))
      s_fresh.doc (init ⟨none, none⟩ s_fresh).doc :=
  ⟨rfl, init_no_record_activates_necessary_only ⟨none, none⟩ s_fresh rfl⟩

/-! ## Claim C8 -/

/-- Claim C8: when the primary backend holds a payload that parses but
whose version differs from the compiled one, `load` falls through to the
fallback cookie; if the fallback's version matches, `load` returns the
fallback's prefs rather than no record. -/
theorem load_reads_fallback_on_primary_version_mismatch
    (s : St) (v v1 : String) (p1 p2 : Prefs) (t1 t2 : Nat)
    (hls : s.lsAvail = true)
    (h1 : s.ls = some (Stored.good v1 p1 t1)) (hne : v1 ≠ v)
    (h2 : s.ck = some (Stored.good v p2 t2)) :
    load v s = some p2 := by
  simp [load, loadCk, hls, h1, h2, hne]

/-- Witness for C8: a version-1 primary payload is skipped in favour of a
version-2 fallback payload. -/
theorem load_reads_fallback_on_primary_version_mismatch_witness :
    ({ emptySt with ls := some (Stored.good "1" [("analytics", true)] 3)
                    ck := some (Stored.good "2" [("marketing", true)] 4) } :
      St).lsAvail = true ∧
    load "2"
      { emptySt with ls := some (Stored.good "1" [("analytics", true)] 3)
                     ck := some (Stored.good "2" [("marketing", true)] 4) } =
      some [("marketing", true)] :=
  ⟨rfl,
   load_reads_fallback_on_primary_version_mismatch _ "2" "1"
     [("analytics", true)] [("marketing", true)] 3 4 rfl rfl (by decide) rfl⟩

/-! ## Claim C9 -/

/-- Claim C9: when the primary backend accepts the write, `save` leaves
the fallback cookie backend untouched. -/
theorem save_primary_success_preserves_fallback (s : St) (p : Prefs) (v : String)
    (h : s.lsAvail = true) : (save v p s).ck = s.ck := by
  simp [save, h]

/-- Witness for C9 at a state whose fallback holds an old payload. -/
theorem save_primary_success_preserves_fallback_witness :
    ({ emptySt with ck := some (Stored.good "1" [] 1) } : St).lsAvail = true ∧
    (save "2" [("analytics", true)]
        { emptySt with ck := some (Stored.good "1" [] 1) }).ck =
      ({ emptySt with ck := some (Stored.good "1" [] 1) } : St).ck :=
  ⟨rfl,
   save_primary_success_preserves_fallback
     { emptySt with ck := some (Stored.good "1" [] 1) }
     [("analytics", true)] "2" rfl⟩

/-! ## Claim C10 -/

/-- Claim C10: `applyConsent` iterates the applied record itself, so every
key with value `true` is activated, registered in the category registry or
not: after `applyConsent`, no element of the document is still inert with
that key as its category tag. -/
theorem applyConsent_activates_unregistered_true_keys (s : St) (p : Prefs)
    (k : String) (hk : (k, true) ∈ p) :
    ∀ e ∈ (applyConsent p s).doc,
      ¬(e.typ = "text/plain" ∧ e.category = some k) := by
  intro e he
  rw [applyConsent_doc, activateAll_eq_map] at he
  rcases List.mem_map.mp he with ⟨x, _, rfl⟩
  exact foldl_activateStep_true_mem p k x hk

/-- An inert declaration tagged with a key absent from the registry. -/
def elWidget : ScriptEl :=
  { typ := "text/plain"
    category := some "widget"
    dataSrc := none
    src := none
    body := "w();" }

/-- Witness for C10: `widget` is not a registry key, yet applying a record
with `widget = true` activates its declaration. -/
theorem applyConsent_activates_unregistered_true_keys_witness :
    (("widget", true) ∈ ([("widget", true)] : Prefs)) ∧
    ("widget" ∉ ({ emptySt with doc := [elWidget] } : St).cats.map Prod.fst) ∧
    ∀ e ∈ (applyConsent [("widget", true)] { emptySt with doc := [elWidget] }).doc,
      ¬(e.typ = "text/plain" ∧ e.category = some "widget") :=
  ⟨by decide, by decide,
   applyConsent_activates_unregistered_true_keys _ _ "widget" (by decide)⟩

end CookieConsent
